import Mathlib

/-!
Verification development for the on-call notifier.

This file gives a shallow embedding of the core of the repository:

* `calculateCurrentAssignment` — the timezone-aware rotation calculator of
  `src/utils/scheduleLoader.node.js` (first copy, lines 151-254), and
  `calculateCurrentAssignmentUtc` — the second copy of the same function in
  that file (lines 407-489), which derives its override date key from the
  UTC ISO string and counts days in host-local time.
* `isCurrentTimeInShift`, `getNextShiftOccurrence`,
  `scheduleNotificationForShift` — from
  `src/services/shiftSchedulerService.js`.
* `storeHistoricalAssignment`, `historyGetScheduleForDate` — the SQLite
  operations of `HistoryService` (`INSERT OR IGNORE` against the
  `UNIQUE(date, layer_key)` table, and the per-date version query), and
  `serviceGetScheduleForDate` — `VersionedScheduleService.getScheduleForDate`
  with its fallback to the in-memory current version.

Modelling conventions:

* A JavaScript `Date` value is its epoch-milliseconds number, embedded as
  `Int`.  JS calendar accessor semantics (`getUTCFullYear`, `getUTCDay`, …)
  are floor-based, which matches `Int`'s `/` (`Int.ediv`) and `%`
  (`Int.emod`) for positive divisors.
* The host process runs at a fixed UTC offset `hostOffsetMin` (minutes);
  host-local accessors (`getHours`, `getDay`, `toDateString`,
  `setDate`-based day stepping) shift by that offset.  Daylight-saving
  transitions are not modelled: named zones are mapped to their standard
  offsets in `zoneStandardOffsetMin`.
* ISO-8601 instants with an embedded offset (layer `start_time`/`end_time`
  strings, from which the code regex-extracts `([+-])(\d\d):(\d\d)$` and
  splits at `T`) are embedded as the parsed record `IsoTime`.
* A layer whose `users` field is absent is embedded with `users = []`;
  the code treats both identically (`!layer.users || layer.users.length === 0`).
-/

namespace OnCall

/-! ### Civil-calendar arithmetic (JS `Date` internals) -/

/-- Milliseconds per day. -/
def msPerDay : Int := 86400000

/-- Days since 1970-01-01 of the civil date `(y, m, d)` (proleptic Gregorian,
`m` is 1-based), as JS `Date.UTC(y, m-1, d) / 86400000` computes it. -/
def daysFromCivil (y m d : Int) : Int :=
  let y2 := y - (if m ≤ 2 then 1 else 0)
  let era := y2 / 400
  let yoe := y2 - era * 400
  let mp := m + (if m > 2 then -3 else 9)
  let doy := (153 * mp + 2) / 5 + d - 1
  let doe := yoe * 365 + yoe / 4 - yoe / 100 + doy
  era * 146097 + doe - 719468

/-- Inverse of `daysFromCivil`: the civil date of an epoch day number. -/
def civilFromDays (z : Int) : Int × Int × Int :=
  let z2 := z + 719468
  let era := z2 / 146097
  let doe := z2 - era * 146097
  let yoe := (doe - doe / 1460 + doe / 36524 - doe / 146096) / 365
  let y := yoe + era * 400
  let doy := doe - (365 * yoe + yoe / 4 - yoe / 100)
  let mp := (5 * doy + 2) / 153
  let d := doy - (153 * mp + 2) / 5 + 1
  let m := mp + (if mp < 10 then 3 else -9)
  (y + (if m ≤ 2 then 1 else 0), m, d)

/-- JS `getUTCDay` of an epoch day number: 0 = Sunday … 6 = Saturday
(1970-01-01 was a Thursday). -/
def dayOfWeek (day : Int) : Int := (day + 4) % 7

/-- Epoch day number of an epoch-milliseconds instant (JS floors). -/
def epochDay (ms : Int) : Int := ms / msPerDay

/-- JS `getHours() * 60 + getMinutes()` of an epoch-ms value read in the
frame it is expressed in (UTC accessors after shifting). -/
def minutesOfDay (ms : Int) : Int := (ms % msPerDay) / 60000

/-- JS `String(n).padStart(2, '0')` for the nonnegative numbers produced by
calendar accessors. -/
def pad2 (n : Int) : String := if n < 10 then "0" ++ toString n else toString n

/-- Four-digit year padding as `Date.prototype.toISOString` renders years
in `[0, 9999]`. -/
def pad4 (n : Int) : String :=
  if n < 10 then "000" ++ toString n
  else if n < 100 then "00" ++ toString n
  else if n < 1000 then "0" ++ toString n
  else toString n

/-- The `YYYY-M-D`-style key the first calculator copy builds with
`getUTCFullYear()`-`padStart(getUTCMonth()+1)`-`padStart(getUTCDate())`. -/
def isoDateKeyOfDay (day : Int) : String :=
  let c := civilFromDays day
  toString c.1 ++ "-" ++ pad2 c.2.1 ++ "-" ++ pad2 c.2.2

/-- The date portion of `toISOString()` (used by the second calculator
copy): same fields, with the year zero-padded to four digits. -/
def toIsoDateKeyOfDay (day : Int) : String :=
  let c := civilFromDays day
  pad4 c.1 ++ "-" ++ pad2 c.2.1 ++ "-" ++ pad2 c.2.2

/-- Abbreviated weekday name as `Date.prototype.toDateString` renders it. -/
def dayShortName (w : Int) : String :=
  if w = 0 then "Sun" else if w = 1 then "Mon" else if w = 2 then "Tue"
  else if w = 3 then "Wed" else if w = 4 then "Thu" else if w = 5 then "Fri"
  else "Sat"

/-- Abbreviated month name as `Date.prototype.toDateString` renders it. -/
def monthShortName (m : Int) : String :=
  if m = 1 then "Jan" else if m = 2 then "Feb" else if m = 3 then "Mar"
  else if m = 4 then "Apr" else if m = 5 then "May" else if m = 6 then "Jun"
  else if m = 7 then "Jul" else if m = 8 then "Aug" else if m = 9 then "Sep"
  else if m = 10 then "Oct" else if m = 11 then "Nov" else "Dec"

/-- JS `toDateString()` of a host-local epoch day number,
e.g. `"Thu Sep 25 2025"`. -/
def jsToDateString (day : Int) : String :=
  let c := civilFromDays day
  dayShortName (dayOfWeek day) ++ " " ++ monthShortName c.2.1 ++ " "
    ++ pad2 c.2.2 ++ " " ++ toString c.1

/-! ### Schedule data model -/

/-- A parsed ISO-8601 instant with embedded UTC offset, as the code extracts
it from strings like `2025-09-25T09:30:00+05:30`: the `T`-split date
portion, the clock time, and the regex-matched offset (`0` when the string
carries no offset, as the code defaults the failed match to offset 0). -/
structure IsoTime where
  year : Int
  month : Int
  day : Int
  hour : Int
  minute : Int
  tzOffsetMin : Int
deriving DecidableEq, Repr

/-- Epoch milliseconds of a parsed ISO instant (what `new Date(s).getTime()`
yields for the embedded string). -/
def IsoTime.utcMs (t : IsoTime) : Int :=
  daysFromCivil t.year t.month t.day * msPerDay
    + t.hour * 3600000 + t.minute * 60000 - t.tzOffsetMin * 60000

/-- One shift layer as loaded from `schedule.yaml`. -/
structure Layer where
  type : String
  start_time : IsoTime
  end_time : IsoTime
  hours : Int
  days_rotate : Nat
  users : List String
deriving DecidableEq, Repr

/-- An old-format override entry `{person, reason, ...}`. -/
structure LegacyOverride where
  person : String
  reason : Option String
deriving DecidableEq, Repr

/-- The overrides object: `structured` models the new-format keys
(`overrides[dateStr][layerKey]`, `dateStr` = `YYYY-MM-DD`), `legacy` the
old-format keys (`overrides["<toDateString()>-<layerKey>"]`). -/
structure Overrides where
  structured : String → String → Option String
  legacy : String → Option LegacyOverride

/-- The empty overrides object. -/
def Overrides.empty : Overrides := ⟨fun _ _ => none, fun _ => none⟩

/-- Result shape of the rotation calculator; `reason` is `none` when the
returned object carries no `reason` field. -/
structure Assignment where
  person : String
  isOverride : Bool
  reason : Option String
deriving DecidableEq, Repr

/-! ### The rotation calculator (first copy, timezone-aware) -/

/-- Weekday counter: the first copy's `while (tempDate <= currentDateInTzOnly)`
loop counting days whose `getUTCDay()` is neither 0 nor 6, unrolled over the
`n` days starting at epoch day `d`. -/
def countWeekdaysFrom (d : Int) : Nat → Nat
  | 0 => 0
  | n + 1 =>
    (if dayOfWeek d ≠ 0 ∧ dayOfWeek d ≠ 6 then 1 else 0) + countWeekdaysFrom (d + 1) n

/-- Weekend counter: the `while (tempDate < currentDateInTzOnly)` loop
counting days whose `getUTCDay()` is 0 or 6. -/
def countWeekendDaysFrom (d : Int) : Nat → Nat
  | 0 => 0
  | n + 1 =>
    (if dayOfWeek d = 0 ∨ dayOfWeek d = 6 then 1 else 0) + countWeekendDaysFrom (d + 1) n

/-- Embeds `layerKey || layer.type || 'weekend'` with JS falsiness of `null` and
the empty string. -/
def resolveLayerKey (layerKey : Option String) (ltype : String) : String :=
  let fromType := if ltype = "" then "weekend" else ltype
  match layerKey with
  | some k => if k = "" then fromType else k
  | none => fromType

/-- Start epoch day of a layer in its own offset: the code takes the date
portion of the ISO string and builds `Date.UTC(sy, sm-1, sd)`. -/
def layerStartDay (layer : Layer) : Int :=
  daysFromCivil layer.start_time.year layer.start_time.month layer.start_time.day

/-- Epoch day of the queried instant shifted into the layer's own offset. -/
def layerCurrentDay (layer : Layer) (date : Int) : Int :=
  epochDay (date + layer.start_time.tzOffsetMin * 60000)

/-- New-format override key of the first copy: the calendar date of the
instant in the layer's own offset, rendered `Y-MM-DD`. -/
def tzDateKey (layer : Layer) (date : Int) : String :=
  isoDateKeyOfDay (layerCurrentDay layer date)

/-- Old-format override key (both copies): `toDateString()` of the instant
in the host's local time, then `-` and the layer key. -/
def legacyOverrideKey (date : Int) (hostOffsetMin : Int) (key : String) : String :=
  jsToDateString (epochDay (date + hostOffsetMin * 60000)) ++ "-" ++ key

/-- Computes `daysDiff` of the first copy: day counting in the layer's own offset,
switching on `layer.type`. -/
def daysDiffTz (layer : Layer) (date : Int) : Int :=
  if layer.type = "weekday" then
    (countWeekdaysFrom (layerStartDay layer)
      (layerCurrentDay layer date - layerStartDay layer + 1).toNat : Int)
  else if layer.type = "weekend" then
    (countWeekendDaysFrom (layerStartDay layer)
      (layerCurrentDay layer date - layerStartDay layer).toNat : Int)
  else layerCurrentDay layer date - layerStartDay layer

/-- Embeds `rotationCycle = daysDiff > 0 ? Math.floor((daysDiff - 1) / days_rotate) : 0`. -/
def rotationCycleOf (layer : Layer) (daysDiff : Int) : Int :=
  if daysDiff > 0 then (daysDiff - 1) / (layer.days_rotate : Int) else 0

/-- Embeds `users[rotationCycle % users.length]`. -/
def rotationMember (layer : Layer) (daysDiff : Int) : String :=
  let userIndex := rotationCycleOf layer daysDiff % (layer.users.length : Int)
  layer.users.getD userIndex.toNat ""

/-- First copy of `calculateCurrentAssignment`
(`src/utils/scheduleLoader.node.js` lines 151-254): guards for a missing
layer and an empty/absent member list, new-format override lookup keyed by
the layer-offset calendar date, old-format override lookup keyed by the
host-local `toDateString`, fixed assignee when `days_rotate` is 0, then
timezone-aware rotation. -/
def calculateCurrentAssignment (layer : Option Layer) (date : Int)
    (overrides : Overrides) (layerKey : Option String) (hostOffsetMin : Int) :
    Assignment :=
  match layer with
  | none => ⟨"Unknown", false, none⟩
  | some layer =>
    if layer.users.isEmpty then ⟨"No users assigned", false, none⟩
    else
      let key := resolveLayerKey layerKey layer.type
      match overrides.structured (tzDateKey layer date) key with
      | some p => ⟨p, true, some "Manual override"⟩
      | none =>
        match overrides.legacy (legacyOverrideKey date hostOffsetMin key) with
        | some o => ⟨o.person, true, o.reason⟩
        | none =>
          if layer.days_rotate = 0 then ⟨layer.users.getD 0 "", false, none⟩
          else ⟨rotationMember layer (daysDiffTz layer date), false, none⟩

/-! ### The rotation calculator (second copy, host-local) -/

/-- Start epoch day as the second copy computes it: host-local calendar
date of the full start instant. -/
def hostStartDay (layer : Layer) (hostOffsetMin : Int) : Int :=
  epochDay (layer.start_time.utcMs + hostOffsetMin * 60000)

/-- Host-local calendar day of the queried instant. -/
def hostCurrentDay (date hostOffsetMin : Int) : Int :=
  epochDay (date + hostOffsetMin * 60000)

/-- Computes `daysDiff` of the second copy: the same loops, over host-local days. -/
def daysDiffHost (layer : Layer) (date : Int) (hostOffsetMin : Int) : Int :=
  if layer.type = "weekday" then
    (countWeekdaysFrom (hostStartDay layer hostOffsetMin)
      (hostCurrentDay date hostOffsetMin - hostStartDay layer hostOffsetMin + 1).toNat : Int)
  else if layer.type = "weekend" then
    (countWeekendDaysFrom (hostStartDay layer hostOffsetMin)
      (hostCurrentDay date hostOffsetMin - hostStartDay layer hostOffsetMin).toNat : Int)
  else hostCurrentDay date hostOffsetMin - hostStartDay layer hostOffsetMin

/-- Second copy of `calculateCurrentAssignment`
(`src/utils/scheduleLoader.node.js` lines 407-489): identical guards and
old-format lookup, but the new-format override key is the UTC date of
`toISOString()` and day counting runs in host-local time. -/
def calculateCurrentAssignmentUtc (layer : Option Layer) (date : Int)
    (overrides : Overrides) (layerKey : Option String) (hostOffsetMin : Int) :
    Assignment :=
  match layer with
  | none => ⟨"Unknown", false, none⟩
  | some layer =>
    if layer.users.isEmpty then ⟨"No users assigned", false, none⟩
    else
      let key := resolveLayerKey layerKey layer.type
      match overrides.structured (toIsoDateKeyOfDay (epochDay date)) key with
      | some p => ⟨p, true, some "Manual override"⟩
      | none =>
        match overrides.legacy (legacyOverrideKey date hostOffsetMin key) with
        | some o => ⟨o.person, true, o.reason⟩
        | none =>
          if layer.days_rotate = 0 then ⟨layer.users.getD 0 "", false, none⟩
          else ⟨rotationMember layer (daysDiffHost layer date hostOffsetMin), false, none⟩

/-! ### Shift window containment (`shiftSchedulerService.isCurrentTimeInShift`) -/

/-- Rendering of an offset in minutes back to the `±hh:mm` string the code's
regex `([+-]\d{2}:\d{2})$` extracts. -/
def offsetString (m : Int) : String :=
  (if m < 0 then "-" else "+") ++ pad2 ((m.natAbs : Int) / 60) ++ ":" ++ pad2 ((m.natAbs : Int) % 60)

/-- The literal offset-to-zone map `getTimezoneFromOffset`, defaulting to
`Asia/Kolkata`. -/
def getTimezoneFromOffset (s : String) : String :=
  if s = "+05:30" then "Asia/Kolkata"
  else if s = "+00:00" then "UTC"
  else if s = "-08:00" then "America/Los_Angeles"
  else if s = "-05:00" then "America/New_York"
  else if s = "+09:00" then "Asia/Tokyo"
  else if s = "+01:00" then "Europe/London"
  else "Asia/Kolkata"

/-- Standard UTC offset in minutes of the named zones the map can produce
(the environment's timezone database; daylight-saving shifts are not
modelled). -/
def zoneStandardOffsetMin (z : String) : Int :=
  if z = "Asia/Kolkata" then 330
  else if z = "UTC" then 0
  else if z = "America/Los_Angeles" then -480
  else if z = "America/New_York" then -300
  else if z = "Asia/Tokyo" then 540
  else 0

/-- Embeds `startTime.getHours() * 60 + startTime.getMinutes()` — the host-local
clock minutes of the layer's configured start instant. -/
def startMinHost (layer : Layer) (hostOffsetMin : Int) : Int :=
  minutesOfDay (layer.start_time.utcMs + hostOffsetMin * 60000)

/-- Host-local clock minutes of the layer's configured end instant. -/
def endMinHost (layer : Layer) (hostOffsetMin : Int) : Int :=
  minutesOfDay (layer.end_time.utcMs + hostOffsetMin * 60000)

/-- Clock minutes of the queried instant converted into the schedule's
zone: the code renders the current time with
`toLocaleString({timeZone: getTimezoneFromOffset(offset)})` and reads
hours/minutes of the result. -/
def curMinInZone (t : Int) (layer : Layer) : Int :=
  minutesOfDay
    (t + zoneStandardOffsetMin (getTimezoneFromOffset (offsetString layer.start_time.tzOffsetMin)) * 60000)

/-- Embeds `isCurrentTimeInShift` (`src/services/shiftSchedulerService.js`
lines 303-343): cross-midnight windows (`end < start` in clock minutes) are
active when `current >= start || current < end`, same-day windows when
`current >= start && current < end`. -/
def isCurrentTimeInShift (t : Int) (layer : Layer) (hostOffsetMin : Int) : Bool :=
  if endMinHost layer hostOffsetMin < startMinHost layer hostOffsetMin then
    decide (startMinHost layer hostOffsetMin ≤ curMinInZone t layer)
      || decide (curMinInZone t layer < endMinHost layer hostOffsetMin)
  else
    decide (startMinHost layer hostOffsetMin ≤ curMinInZone t layer)
      && decide (curMinInZone t layer < endMinHost layer hostOffsetMin)

/-! ### Occurrence search (`getNextShiftOccurrence`) -/

/-- JS `getDay()` of an instant at the host's offset. -/
def jsGetDay (t hostOffsetMin : Int) : Int :=
  dayOfWeek (epochDay (t + hostOffsetMin * 60000))

/-- Today's candidate: a copy of `now` with the shift's host-local
clock time and zeroed seconds/milliseconds
(`todayShift.setHours(...); setMinutes(...); setSeconds(0); setMilliseconds(0)`). -/
def todayShiftOf (shiftStart now hostOffsetMin : Int) : Int :=
  let localDay := epochDay (now + hostOffsetMin * 60000)
  localDay * msPerDay + minutesOfDay (shiftStart + hostOffsetMin * 60000) * 60000
    - hostOffsetMin * 60000

/-- The `while (daysToAdd <= 7)` probe: at a fixed host offset,
`setDate(getDate() + d)` advances by `d` whole days. -/
def probeNextDay (base hostOffsetMin : Int) (early : Bool) (d : Nat) : Nat → Option Int
  | 0 => none
  | fuel + 1 =>
    if early ∧ jsGetDay (base + (d : Int) * msPerDay) hostOffsetMin = 6 then
      some (base + (d : Int) * msPerDay)
    else if jsGetDay (base + (d : Int) * msPerDay) hostOffsetMin ≠ 0
        ∧ jsGetDay (base + (d : Int) * msPerDay) hostOffsetMin ≠ 6 then
      some (base + (d : Int) * msPerDay)
    else probeNextDay base hostOffsetMin early (d + 1) fuel

/-- Embeds `getNextShiftOccurrence` (`src/services/shiftSchedulerService.js`
lines 660-705): use today's candidate if it is still in the future on a
weekday; otherwise probe forward up to 7 days, accepting Saturdays for
shifts starting before 10:00 host-local; `none` past the bound. -/
def getNextShiftOccurrence (shiftStart now hostOffsetMin : Int) : Option Int :=
  if todayShiftOf shiftStart now hostOffsetMin > now
      ∧ jsGetDay (todayShiftOf shiftStart now hostOffsetMin) hostOffsetMin ≠ 0
      ∧ jsGetDay (todayShiftOf shiftStart now hostOffsetMin) hostOffsetMin ≠ 6 then
    some (todayShiftOf shiftStart now hostOffsetMin)
  else
    probeNextDay (todayShiftOf shiftStart now hostOffsetMin) hostOffsetMin
      (decide (minutesOfDay (shiftStart + hostOffsetMin * 60000) / 60 < 10)) 1 7

/-! ### Notification timers (`scheduleNotificationForShift`) -/

/-- In-memory scheduler state: the keys of the `activeTimers` map. -/
structure SchedulerState where
  activeTimers : List String
deriving DecidableEq, Repr

/-- Builds the timer key string: the layer key, a dash, then the decimal
rendering of the shift instant ms. -/
def timerKey (layerKey : String) (shiftTime : Int) : String :=
  layerKey ++ "-" ++ toString shiftTime

/-- Embeds `scheduleNotificationForShift` (`src/services/shiftSchedulerService.js`
lines 153-174): skip past notifications, skip already-armed keys, otherwise
arm a timer under the key. -/
def scheduleNotificationForShift (st : SchedulerState) (shiftTime : Int)
    (layerKey : String) (minutesBefore : Int) (now : Int) : SchedulerState :=
  if shiftTime - minutesBefore * 60000 ≤ now then st
  else if timerKey layerKey shiftTime ∈ st.activeTimers then st
  else ⟨st.activeTimers ++ [timerKey layerKey shiftTime]⟩

/-! ### Ledger (`HistoryService`, `VersionedScheduleService`) -/

/-- A row of the `historical_assignments` table. -/
structure HistoricalAssignment where
  date : String
  layer_key : String
  person : String
  version_id : Nat
  override_id : Option Nat
  created_at : String
deriving DecidableEq, Repr

/-- The `UNIQUE(date, layer_key)` key predicate. -/
def sameAssignmentKey (date layerKey : String) (r : HistoricalAssignment) : Bool :=
  r.date == date && r.layer_key == layerKey

/-- Embeds `HistoryService.storeHistoricalAssignment` (`INSERT OR IGNORE` into
`historical_assignments` with `UNIQUE(date, layer_key)`): appends the row
if no row with the key exists, otherwise leaves the table unchanged; either
way it resolves without error. -/
def storeHistoricalAssignment (db : List HistoricalAssignment)
    (date layerKey person : String) (versionId : Nat) (overrideId : Option Nat)
    (now : String) : List HistoricalAssignment :=
  if db.any (sameAssignmentKey date layerKey) then db
  else db ++ [⟨date, layerKey, person, versionId, overrideId, now⟩]

/-- A row of the `schedule_versions` table.  `effective_date` is the stored
`YYYY-MM-DD` text; lexicographic text comparison on such strings coincides
with the numeric order of a day code, so it is embedded as `Nat`.
`schedule_data` is the stored JSON blob, kept opaque. -/
structure ScheduleVersion where
  id : Nat
  version_name : String
  effective_date : Nat
  schedule_data : String
  is_active : Bool
deriving DecidableEq, Repr

/-- Choice step of the `ORDER BY effective_date DESC LIMIT 1` query:
keep the row with the larger effective date; ties broken by latest
creation order (larger autoincrement `id`), the tie-break §4.4 of the
spec names (SQL leaves the tie order unspecified). -/
def pickLaterVersion (a b : ScheduleVersion) : ScheduleVersion :=
  if a.effective_date < b.effective_date
      ∨ (a.effective_date = b.effective_date ∧ a.id < b.id) then b else a

/-- Embeds `HistoryService.getScheduleForDate` (`part_003` lines 157-180):
`SELECT * FROM schedule_versions WHERE effective_date <= ? AND is_active = 1
ORDER BY effective_date DESC LIMIT 1`. -/
def historyGetScheduleForDate (db : List ScheduleVersion) (targetDate : Nat) :
    Option ScheduleVersion :=
  (db.filter (fun v => v.effective_date ≤ targetDate && v.is_active)).foldl
    (fun acc v => match acc with
      | none => some v
      | some a => some (pickLaterVersion a v)) none

/-- In-memory state of `VersionedScheduleService`: the version table plus
the service's current schedule and current version. -/
structure VersionedServiceState where
  db : List ScheduleVersion
  currentSchedule : String
  currentVersion : Option ScheduleVersion
deriving DecidableEq, Repr

/-- Return shape of `VersionedScheduleService.getScheduleForDate`. -/
structure ScheduleLookupResult where
  schedule : String
  version : Option ScheduleVersion
deriving DecidableEq, Repr

/-- Embeds `VersionedScheduleService.getScheduleForDate` (`part_005` lines
115-145): the stored version effective for the date if one exists,
otherwise the in-memory current schedule and current version. -/
def serviceGetScheduleForDate (st : VersionedServiceState) (targetDate : Nat) :
    ScheduleLookupResult :=
  match historyGetScheduleForDate st.db targetDate with
  | some v => ⟨v.schedule_data, some v⟩
  | none => ⟨st.currentSchedule, st.currentVersion⟩

/-! ### Concrete fixtures (from `getFallbackScheduleData`) -/

/-- Fallback `weekday.layer1`: start `2025-09-25T09:30:00+05:30`, rotation
period 2 days, members `[dinesh, melannie, prashanth, alrida]`. -/
def layer1Fixture : Layer :=
  { type := "weekday"
    start_time := ⟨2025, 9, 25, 9, 30, 330⟩
    end_time := ⟨2025, 9, 25, 15, 30, 330⟩
    hours := 6
    days_rotate := 2
    users := ["dinesh", "melannie", "prashanth", "alrida"] }

/-- Fallback `weekday.layer3`: the cross-midnight window
`21:30`–`03:30` at `+05:30`. -/
def layer3Fixture : Layer :=
  { type := "weekday"
    start_time := ⟨2025, 9, 8, 21, 30, 330⟩
    end_time := ⟨2025, 9, 9, 3, 30, 330⟩
    hours := 6
    days_rotate := 5
    users := ["kartikeya"] }

/-- Epoch milliseconds of a wall-clock time at a given UTC offset. -/
def utcMsOf (y m d hh mm offMin : Int) : Int :=
  daysFromCivil y m d * msPerDay + hh * 3600000 + mm * 60000 - offMin * 60000

/-! ### Helper lemmas -/

/-- Adding whole days does not change the time of day. -/
theorem minutesOfDay_mul_add (day x : Int) (h0 : 0 ≤ x) (h1 : x < msPerDay) :
    minutesOfDay (day * msPerDay + x) = x / 60000 := by
  unfold minutesOfDay
  rw [show day * msPerDay + x = x + msPerDay * day by ring,
    Int.add_mul_emod_self_left, Int.emod_eq_of_lt h0 h1]

/-- The epoch day of a whole-day multiple plus an in-day remainder. -/
theorem epochDay_mul_add (day x : Int) (h0 : 0 ≤ x) (h1 : x < msPerDay) :
    epochDay (day * msPerDay + x) = day := by
  unfold epochDay
  rw [show day * msPerDay + x = x + msPerDay * day by ring,
    Int.add_mul_ediv_left x day (by norm_num [msPerDay]),
    Int.ediv_eq_zero_of_lt h0 h1]
  ring

/-! ### Claims -/

/-- C4: for the fallback weekday layer with start `2025-09-25T09:30+05:30`,
rotation period 2 days and members `[dinesh, melannie, prashanth, alrida]`
(the claim's `[A,B,C,D]`), with no overrides, assigning at
`2025-09-25T10:00+05:30` returns the first member and assigning at
`2025-09-29T10:00+05:30` returns the second: weekday day-counting includes
the start date, counts only Mon-Fri in the layer's own offset, and skips
the weekend of 9/27-9/28. -/
theorem c4_weekday_rotation_scenario :
    calculateCurrentAssignment (some layer1Fixture) (utcMsOf 2025 9 25 10 0 330)
        Overrides.empty (some "layer1") 330
      = ⟨"dinesh", false, none⟩
    ∧ calculateCurrentAssignment (some layer1Fixture) (utcMsOf 2025 9 29 10 0 330)
        Overrides.empty (some "layer1") 330
      = ⟨"melannie", false, none⟩ := by
  constructor <;> decide

/-- C10: calling the rotation calculator (either source copy) on a missing
layer, or on a layer whose member list is absent or empty (both embedded as
`users = []`), returns the documented sentinel without throwing or
indexing out of bounds, for every instant, override set, layer-key
argument and host offset. -/
theorem c10_guard_clauses (date : Int) (overrides : Overrides)
    (layerKey : Option String) (hostOffsetMin : Int) :
    calculateCurrentAssignment none date overrides layerKey hostOffsetMin
      = ⟨"Unknown", false, none⟩
    ∧ calculateCurrentAssignmentUtc none date overrides layerKey hostOffsetMin
      = ⟨"Unknown", false, none⟩
    ∧ (∀ layer : Layer, layer.users = [] →
        calculateCurrentAssignment (some layer) date overrides layerKey hostOffsetMin
          = ⟨"No users assigned", false, none⟩
        ∧ calculateCurrentAssignmentUtc (some layer) date overrides layerKey hostOffsetMin
          = ⟨"No users assigned", false, none⟩) := by
  refine ⟨rfl, rfl, fun layer hempty => ?_⟩
  constructor
  · simp [calculateCurrentAssignment, hempty]
  · simp [calculateCurrentAssignmentUtc, hempty]

/-- Witness for C10 at a concrete empty-member layer. -/
theorem c10_guard_clauses_witness :
    ({ layer1Fixture with users := [] } : Layer).users = []
    ∧ calculateCurrentAssignment (some { layer1Fixture with users := [] }) 0
        Overrides.empty (some "layer1") 330
      = ⟨"No users assigned", false, none⟩ :=
  ⟨rfl, ((c10_guard_clauses 0 Overrides.empty (some "layer1") 330).2.2
    { layer1Fixture with users := [] } rfl).1⟩

/-- C2: override precedence for the timezone-aware calculator, for every
layer with a non-empty member list (the spec's §3 invariant), instant,
override set, layer-key argument and host offset.  Under the structured
format the key is the instant's calendar date taken in the layer's own UTC
offset (`tzDateKey`); under the legacy format the key is the
locale-dependent `toDateString` of the instant (host-local), checked when
the structured lookup misses.  In both cases the override's person is
returned with `isOverride = true`, never the computed rotation member. -/
theorem c2_override_precedence (layer : Layer) (date : Int)
    (overrides : Overrides) (layerKey : Option String) (hostOffsetMin : Int)
    (husers : layer.users ≠ []) :
    (∀ p, overrides.structured (tzDateKey layer date)
        (resolveLayerKey layerKey layer.type) = some p →
      calculateCurrentAssignment (some layer) date overrides layerKey hostOffsetMin
        = ⟨p, true, some "Manual override"⟩)
    ∧ (overrides.structured (tzDateKey layer date)
        (resolveLayerKey layerKey layer.type) = none →
       ∀ o, overrides.legacy
          (legacyOverrideKey date hostOffsetMin (resolveLayerKey layerKey layer.type))
            = some o →
        calculateCurrentAssignment (some layer) date overrides layerKey hostOffsetMin
          = ⟨o.person, true, o.reason⟩) := by
  have hne : layer.users.isEmpty = false := by
    simp [List.isEmpty_iff, husers]
  constructor
  · intro p hp
    simp [calculateCurrentAssignment, hne, hp]
  · intro hs o ho
    simp [calculateCurrentAssignment, hne, hs, ho]

/-- Witness for C2 at a concrete structured override: the instant
`2025-09-25T20:00Z` falls on `2025-09-26` in the layer's `+05:30` offset,
and the structured override for that date wins. -/
theorem c2_override_precedence_witness :
    layer1Fixture.users ≠ []
    ∧ (Overrides.mk
        (fun d k => if d = "2025-09-26" ∧ k = "layer1" then some "gaurav" else none)
        (fun _ => none)).structured (tzDateKey layer1Fixture (utcMsOf 2025 9 25 20 0 0))
          (resolveLayerKey (some "layer1") layer1Fixture.type) = some "gaurav"
    ∧ calculateCurrentAssignment (some layer1Fixture) (utcMsOf 2025 9 25 20 0 0)
        (Overrides.mk
          (fun d k => if d = "2025-09-26" ∧ k = "layer1" then some "gaurav" else none)
          (fun _ => none))
        (some "layer1") 0
      = ⟨"gaurav", true, some "Manual override"⟩ :=
  ⟨by decide, by decide,
    (c2_override_precedence layer1Fixture (utcMsOf 2025 9 25 20 0 0)
      (Overrides.mk
        (fun d k => if d = "2025-09-26" ∧ k = "layer1" then some "gaurav" else none)
        (fun _ => none))
      (some "layer1") 0 (by decide)).1 "gaurav" (by decide)⟩

/-- C1: recording a historical assignment is idempotent.  When the table
holds no record for `(date, layerKey)`, a first `storeHistoricalAssignment`
inserts one record; any second call for the same key — with the same or a
different person, version, override id or timestamp — leaves the table
unchanged (the `INSERT OR IGNORE` resolves without error), and exactly one
record with that key remains, equal to the first call's row. -/
theorem c1_record_assignment_idempotent (db : List HistoricalAssignment)
    (date layerKey p1 : String) (v1 : Nat) (o1 : Option Nat) (n1 : String)
    (p2 : String) (v2 : Nat) (o2 : Option Nat) (n2 : String)
    (hfresh : db.any (sameAssignmentKey date layerKey) = false) :
    storeHistoricalAssignment
        (storeHistoricalAssignment db date layerKey p1 v1 o1 n1)
        date layerKey p2 v2 o2 n2
      = storeHistoricalAssignment db date layerKey p1 v1 o1 n1
    ∧ (storeHistoricalAssignment db date layerKey p1 v1 o1 n1).filter
        (sameAssignmentKey date layerKey)
      = [HistoricalAssignment.mk date layerKey p1 v1 o1 n1] := by
  have hkey : sameAssignmentKey date layerKey
      (HistoricalAssignment.mk date layerKey p1 v1 o1 n1) = true := by
    simp [sameAssignmentKey]
  have hnil : db.filter (sameAssignmentKey date layerKey) = [] := by
    rw [List.filter_eq_nil_iff]
    intro a ha
    intro hcontra
    have := (List.any_eq_true).mpr ⟨a, ha, hcontra⟩
    rw [hfresh] at this
    exact Bool.false_ne_true this
  have hstore1 : storeHistoricalAssignment db date layerKey p1 v1 o1 n1
      = db ++ [HistoricalAssignment.mk date layerKey p1 v1 o1 n1] := by
    simp [storeHistoricalAssignment, hfresh]
  constructor
  · rw [hstore1]
    have hany : (db ++ [HistoricalAssignment.mk date layerKey p1 v1 o1 n1]).any
        (sameAssignmentKey date layerKey) = true := by
      simp [List.any_append, hkey]
    simp [storeHistoricalAssignment, hany]
  · rw [hstore1, List.filter_append, hnil]
    simp [hkey]

/-- Witness for C1: starting from the empty table, a second call for the
same `(date, layerKey)` with a different person is a no-op. -/
theorem c1_record_assignment_idempotent_witness :
    ([] : List HistoricalAssignment).any (sameAssignmentKey "2025-09-25" "layer1") = false
    ∧ storeHistoricalAssignment
        (storeHistoricalAssignment [] "2025-09-25" "layer1" "dinesh" 1 none "t1")
        "2025-09-25" "layer1" "gaurav" 2 none "t2"
      = storeHistoricalAssignment [] "2025-09-25" "layer1" "dinesh" 1 none "t1" :=
  ⟨rfl, (c1_record_assignment_idempotent [] "2025-09-25" "layer1" "dinesh" 1 none "t1"
    "gaurav" 2 none "t2" rfl).1⟩

/-- C7: arming notifications is duplicate-suppressing.  First conjunct:
whenever the timer key of `(layerKey, occurrenceInstant)` is already in the
active-timer set — in particular right after a first scheduling call armed
it and before the timer fires — a further scheduling call for the same pair
returns the state unchanged, whatever its lead time and current time.
Second conjunct: a call starting from a state without the key leaves at
most one timer under that key, so at most one notification per occurrence. -/
theorem c7_duplicate_suppression (st : SchedulerState) (shiftTime : Int)
    (layerKey : String) (minutesBefore now : Int) :
    (timerKey layerKey shiftTime ∈ st.activeTimers →
      scheduleNotificationForShift st shiftTime layerKey minutesBefore now = st)
    ∧ (timerKey layerKey shiftTime ∉ st.activeTimers →
      (scheduleNotificationForShift st shiftTime layerKey minutesBefore now).activeTimers.count
          (timerKey layerKey shiftTime) ≤ 1) := by
  constructor
  · intro hmem
    unfold scheduleNotificationForShift
    by_cases h1 : shiftTime - minutesBefore * 60000 ≤ now
    · rw [if_pos h1]
    · rw [if_neg h1, if_pos hmem]
  · intro hnot
    have hzero : st.activeTimers.count (timerKey layerKey shiftTime) = 0 :=
      List.count_eq_zero.mpr hnot
    unfold scheduleNotificationForShift
    by_cases h1 : shiftTime - minutesBefore * 60000 ≤ now
    · rw [if_pos h1]; omega
    · rw [if_neg h1, if_neg hnot]
      simp [List.count_append, hzero]

/-- Witness for C7: after arming from the empty state, a second call one
minute later is a no-op, and one timer exists for the pair. -/
theorem c7_duplicate_suppression_witness :
    (timerKey "layer1" 1758796200000
        ∈ (SchedulerState.mk [timerKey "layer1" 1758796200000]).activeTimers
      → scheduleNotificationForShift (SchedulerState.mk [timerKey "layer1" 1758796200000])
          1758796200000 "layer1" 15 1758700000000
        = SchedulerState.mk [timerKey "layer1" 1758796200000])
    ∧ scheduleNotificationForShift (SchedulerState.mk [timerKey "layer1" 1758796200000])
        1758796200000 "layer1" 15 1758700000000
      = SchedulerState.mk [timerKey "layer1" 1758796200000] := by
  have h := c7_duplicate_suppression (SchedulerState.mk [timerKey "layer1" 1758796200000])
    1758796200000 "layer1" 15 1758700000000
  exact ⟨h.1, h.1 (by simp)⟩

/-- Bound for the occurrence probe loop: with `fuel` iterations left and the
day counter at `d`, the probe returns `none` or a candidate that is the base
instant advanced by between `d` and `d + fuel - 1` whole days. -/
theorem probeNextDay_spec (base hostOffsetMin : Int) (early : Bool) :
    ∀ (fuel d : Nat),
      probeNextDay base hostOffsetMin early d fuel = none
      ∨ ∃ k : Nat, d ≤ k ∧ k < d + fuel
          ∧ probeNextDay base hostOffsetMin early d fuel
            = some (base + (k : Int) * msPerDay) := by
  intro fuel
  induction fuel with
  | zero => intro d; left; rfl
  | succ n ih =>
    intro d
    unfold probeNextDay
    split_ifs with h1 h2
    · right; exact ⟨d, le_refl d, by omega, rfl⟩
    · right; exact ⟨d, le_refl d, by omega, rfl⟩
    · rcases ih (d + 1) with hnone | ⟨k, hk1, hk2, heq⟩
      · left; exact hnone
      · right; exact ⟨k, by omega, by omega, heq⟩

/-- C6: for every shift start instant, reference instant and host offset,
`getNextShiftOccurrence` terminates with either `none` or a concrete start
instant at most 7 days after today's candidate — it is a total function
whose probe loop is bounded by 7 iterations, so it never throws and never
loops forever, matching the claim even for configurations in which every
probed day is rejected. -/
theorem c6_occurrence_bounded (shiftStart now hostOffsetMin : Int) :
    getNextShiftOccurrence shiftStart now hostOffsetMin = none
    ∨ ∃ k : Nat, k ≤ 7
        ∧ getNextShiftOccurrence shiftStart now hostOffsetMin
          = some (todayShiftOf shiftStart now hostOffsetMin + (k : Int) * msPerDay) := by
  unfold getNextShiftOccurrence
  split_ifs with hc
  · right
    refine ⟨0, by norm_num, ?_⟩
    simp
  · rcases probeNextDay_spec (todayShiftOf shiftStart now hostOffsetMin) hostOffsetMin
        (decide (minutesOfDay (shiftStart + hostOffsetMin * 60000) / 60 < 10)) 7 1 with
      hnone | ⟨k, hk1, hk2, heq⟩
    · left; exact hnone
    · right; exact ⟨k, by omega, heq⟩

/-- C5: midnight-crossing window containment.  First conjunct: for every
layer whose window crosses midnight (end clock-time numerically smaller
than start clock-time) and every instant and host offset, the containment
test holds exactly when the current time-of-day in the schedule's zone is
`≥ start` or `< end`.  Remaining conjuncts: the fallback layer with window
`21:30`–`03:30` at `+05:30` (host also at `+05:30`, where the layer-local
clock readings are exactly the claim's `21:30`/`03:30`) is active at 23:00
and at 01:00 IST and inactive at 10:00 IST, on any day. -/
theorem c5_midnight_crossing_window :
    (∀ (layer : Layer) (t hostOffsetMin : Int),
      endMinHost layer hostOffsetMin < startMinHost layer hostOffsetMin →
      (isCurrentTimeInShift t layer hostOffsetMin = true ↔
        (startMinHost layer hostOffsetMin ≤ curMinInZone t layer
          ∨ curMinInZone t layer < endMinHost layer hostOffsetMin)))
    ∧ (∀ day : Int, isCurrentTimeInShift (day * msPerDay + 63000000) layer3Fixture 330 = true)
    ∧ (∀ day : Int, isCurrentTimeInShift (day * msPerDay + 70200000) layer3Fixture 330 = true)
    ∧ (∀ day : Int, isCurrentTimeInShift (day * msPerDay + 16200000) layer3Fixture 330 = false) := by
  have hz : zoneStandardOffsetMin
      (getTimezoneFromOffset (offsetString layer3Fixture.start_time.tzOffsetMin)) = 330 := by
    decide
  have hs : startMinHost layer3Fixture 330 = 1290 := by decide
  have he : endMinHost layer3Fixture 330 = 210 := by decide
  refine ⟨?_, ?_, ?_, ?_⟩
  · intro layer t hostOffsetMin h
    unfold isCurrentTimeInShift
    rw [if_pos h]
    simp
  · intro day
    have hcur : curMinInZone (day * msPerDay + 63000000) layer3Fixture = 1380 := by
      unfold curMinInZone
      rw [hz, show day * msPerDay + 63000000 + 330 * 60000 = day * msPerDay + 82800000 by
        simp only [msPerDay]; ring]
      rw [minutesOfDay_mul_add day 82800000 (by norm_num) (by norm_num [msPerDay])]
      decide
    unfold isCurrentTimeInShift
    rw [hs, he, hcur]
    decide
  · intro day
    have hcur : curMinInZone (day * msPerDay + 70200000) layer3Fixture = 60 := by
      unfold curMinInZone
      rw [hz, show day * msPerDay + 70200000 + 330 * 60000 = (day + 1) * msPerDay + 3600000 by
        simp only [msPerDay]; ring]
      rw [minutesOfDay_mul_add (day + 1) 3600000 (by norm_num) (by norm_num [msPerDay])]
      decide
    unfold isCurrentTimeInShift
    rw [hs, he, hcur]
    decide
  · intro day
    have hcur : curMinInZone (day * msPerDay + 16200000) layer3Fixture = 600 := by
      unfold curMinInZone
      rw [hz, show day * msPerDay + 16200000 + 330 * 60000 = day * msPerDay + 36000000 by
        simp only [msPerDay]; ring]
      rw [minutesOfDay_mul_add day 36000000 (by norm_num) (by norm_num [msPerDay])]
      decide
    unfold isCurrentTimeInShift
    rw [hs, he, hcur]
    decide

/-- Witness for C5's hypothesized conjunct at the concrete cross-midnight
layer and the instant 0. -/
theorem c5_midnight_crossing_window_witness :
    endMinHost layer3Fixture 330 < startMinHost layer3Fixture 330
    ∧ (isCurrentTimeInShift 0 layer3Fixture 330 = true ↔
        (startMinHost layer3Fixture 330 ≤ curMinInZone 0 layer3Fixture
          ∨ curMinInZone 0 layer3Fixture < endMinHost layer3Fixture 330)) :=
  ⟨by decide, c5_midnight_crossing_window.1 layer3Fixture 0 330 (by decide)⟩

/-- C8: pre-start behaviour of the timezone-aware calculator, for every
layer with a positive rotation period and a non-empty member list, and
every instant whose calendar date in the layer's own offset is on or before
the layer's start date (with no overrides): for strictly pre-start dates
the computed `daysDiff` is `≤ 0`; for dates on or before the start date the
rotation cycle resolves deterministically to `0`, the member index is `0`
(never negative), and the calculator returns the first member. -/
theorem c8_prestart_resolves_to_first_member (layer : Layer) (t : Int)
    (layerKey : Option String) (hostOffsetMin : Int)
    (husers : layer.users ≠ []) (hrot : 0 < layer.days_rotate) :
    (layerCurrentDay layer t < layerStartDay layer → daysDiffTz layer t ≤ 0)
    ∧ (layerCurrentDay layer t ≤ layerStartDay layer →
        rotationCycleOf layer (daysDiffTz layer t) = 0
        ∧ calculateCurrentAssignment (some layer) t Overrides.empty layerKey hostOffsetMin
            = ⟨layer.users.getD 0 "", false, none⟩) := by
  have hne : layer.users.isEmpty = false := by
    simp [List.isEmpty_iff, husers]
  have hdiff_le : layerCurrentDay layer t ≤ layerStartDay layer → daysDiffTz layer t ≤ 1 := by
    intro hle
    unfold daysDiffTz
    split_ifs with h1 h2
    · rcases lt_or_eq_of_le hle with hlt | heq
      · have hz : (layerCurrentDay layer t - layerStartDay layer + 1).toNat = 0 :=
          Int.toNat_of_nonpos (by omega)
        rw [hz]
        simp [countWeekdaysFrom]
      · have hone : (layerCurrentDay layer t - layerStartDay layer + 1).toNat = 1 := by
          omega
        rw [hone]
        unfold countWeekdaysFrom
        split_ifs <;> simp [countWeekdaysFrom]
    · have hz : (layerCurrentDay layer t - layerStartDay layer).toNat = 0 :=
        Int.toNat_of_nonpos (by omega)
      rw [hz]
      simp [countWeekendDaysFrom]
    · omega
  have hpre : layerCurrentDay layer t < layerStartDay layer → daysDiffTz layer t ≤ 0 := by
    intro hlt
    unfold daysDiffTz
    split_ifs with h1 h2
    · have hz : (layerCurrentDay layer t - layerStartDay layer + 1).toNat = 0 :=
        Int.toNat_of_nonpos (by omega)
      rw [hz]
      simp [countWeekdaysFrom]
    · have hz : (layerCurrentDay layer t - layerStartDay layer).toNat = 0 :=
        Int.toNat_of_nonpos (by omega)
      rw [hz]
      simp [countWeekendDaysFrom]
    · omega
  refine ⟨hpre, fun hle => ?_⟩
  have hcycle : rotationCycleOf layer (daysDiffTz layer t) = 0 := by
    unfold rotationCycleOf
    split_ifs with hpos
    · have h1 : daysDiffTz layer t = 1 := by
        have := hdiff_le hle
        omega
      rw [h1]
      simp
    · rfl
  refine ⟨hcycle, ?_⟩
  have hmember : rotationMember layer (daysDiffTz layer t) = layer.users.getD 0 "" := by
    unfold rotationMember
    rw [hcycle]
    simp
  simp [calculateCurrentAssignment, hne, Overrides.empty, Nat.pos_iff_ne_zero.mp hrot, hmember]

/-- Witness for C8: a query five days before the fallback layer's start
date, in its own offset, returns the first member with rotation cycle 0. -/
theorem c8_prestart_resolves_to_first_member_witness :
    layerCurrentDay layer1Fixture (utcMsOf 2025 9 20 10 0 330)
      ≤ layerStartDay layer1Fixture
    ∧ rotationCycleOf layer1Fixture
        (daysDiffTz layer1Fixture (utcMsOf 2025 9 20 10 0 330)) = 0
    ∧ calculateCurrentAssignment (some layer1Fixture) (utcMsOf 2025 9 20 10 0 330)
        Overrides.empty (some "layer1") 330
      = ⟨layer1Fixture.users.getD 0 "", false, none⟩ :=
  ⟨by decide,
    ((c8_prestart_resolves_to_first_member layer1Fixture (utcMsOf 2025 9 20 10 0 330)
      (some "layer1") 330 (by decide) (by decide)).2 (by decide)).1,
    ((c8_prestart_resolves_to_first_member layer1Fixture (utcMsOf 2025 9 20 10 0 330)
      (some "layer1") 330 (by decide) (by decide)).2 (by decide)).2⟩

/-- Choice step of the version query never decreases the effective date. -/
theorem pickLaterVersion_le (a b : ScheduleVersion) :
    a.effective_date ≤ (pickLaterVersion a b).effective_date
    ∧ b.effective_date ≤ (pickLaterVersion a b).effective_date := by
  unfold pickLaterVersion
  split_ifs with h
  · constructor
    · rcases h with h | h
      · omega
      · omega
    · exact le_refl _
  · push_neg at h
    exact ⟨le_refl _, h.1⟩

/-- Choice step of the version query returns one of its two arguments. -/
theorem pickLaterVersion_mem (a b : ScheduleVersion) :
    pickLaterVersion a b = a ∨ pickLaterVersion a b = b := by
  unfold pickLaterVersion
  split_ifs
  · right; rfl
  · left; rfl

/-- Folding the version choice from a seed yields a row that is the seed or
a list element and dominates the seed and every list element in effective
date. -/
theorem versionFold_spec (l : List ScheduleVersion) :
    ∀ a : ScheduleVersion,
      ∃ v, l.foldl (fun acc w => match acc with
          | none => some w
          | some b => some (pickLaterVersion b w)) (some a) = some v
        ∧ (v = a ∨ v ∈ l)
        ∧ a.effective_date ≤ v.effective_date
        ∧ ∀ w ∈ l, w.effective_date ≤ v.effective_date := by
  induction l with
  | nil =>
    intro a
    exact ⟨a, rfl, Or.inl rfl, le_refl _, by simp⟩
  | cons b l ih =>
    intro a
    rcases ih (pickLaterVersion a b) with ⟨v, hv, hmem, hle, hall⟩
    refine ⟨v, ?_, ?_, ?_, ?_⟩
    · rw [List.foldl_cons]
      exact hv
    · rcases hmem with h | h
      · rcases pickLaterVersion_mem a b with hp | hp
        · left; rw [h, hp]
        · right; rw [h, hp]; exact List.mem_cons_self b l
      · right; exact List.mem_cons_of_mem b h
    · exact le_trans (pickLaterVersion_le a b).1 hle
    · intro w hw
      rcases List.mem_cons.mp hw with h | h
      · rw [h]
        exact le_trans (pickLaterVersion_le a b).2 hle
      · exact hall w h

/-- Specification of the per-date version query: a returned row is a
stored, active row with effective date at most the target, maximal among
such rows; `none` is returned exactly when no stored row qualifies. -/
theorem historyGetScheduleForDate_spec (db : List ScheduleVersion) (target : Nat) :
    (∀ v, historyGetScheduleForDate db target = some v →
      v ∈ db ∧ v.is_active = true ∧ v.effective_date ≤ target
      ∧ ∀ w ∈ db, w.is_active = true → w.effective_date ≤ target →
          w.effective_date ≤ v.effective_date)
    ∧ (historyGetScheduleForDate db target = none →
      ∀ w ∈ db, ¬(w.is_active = true ∧ w.effective_date ≤ target)) := by
  have hfilter : ∀ w : ScheduleVersion,
      (w.effective_date ≤ target && w.is_active) = true ↔
        (w.is_active = true ∧ w.effective_date ≤ target) := by
    intro w
    constructor
    · intro h
      simp only [Bool.and_eq_true, decide_eq_true_eq] at h
      exact ⟨h.2, h.1⟩
    · intro h
      simp only [Bool.and_eq_true, decide_eq_true_eq]
      exact ⟨h.2, h.1⟩
  rcases hl : db.filter (fun v => v.effective_date ≤ target && v.is_active) with _ | ⟨a, rest⟩
  · constructor
    · intro v hv
      unfold historyGetScheduleForDate at hv
      rw [hl] at hv
      exact absurd hv (by simp)
    · intro _ w hw hcontra
      have : (fun v : ScheduleVersion => v.effective_date ≤ target && v.is_active) w = true :=
        (hfilter w).mpr hcontra
      have hmem : w ∈ db.filter (fun v => v.effective_date ≤ target && v.is_active) :=
        List.mem_filter.mpr ⟨hw, this⟩
      rw [hl] at hmem
      exact absurd hmem (by simp)
  · rcases versionFold_spec rest a with ⟨u, hu, hmem, hle, hall⟩
    constructor
    · intro v hv
      unfold historyGetScheduleForDate at hv
      rw [hl, List.foldl_cons] at hv
      have hv2 : u = v := by
        have := hu.symm.trans hv
        exact Option.some_injective _ this
      subst hv2
      have humem : u ∈ db.filter (fun v => v.effective_date ≤ target && v.is_active) := by
        rw [hl]
        rcases hmem with h | h
        · rw [h]; exact List.mem_cons_self a rest
        · exact List.mem_cons_of_mem a h
      have hP := List.mem_filter.mp humem
      refine ⟨hP.1, ((hfilter u).mp hP.2).1, ((hfilter u).mp hP.2).2, ?_⟩
      intro w hw hwa hwe
      have hwmem : w ∈ db.filter (fun v => v.effective_date ≤ target && v.is_active) :=
        List.mem_filter.mpr ⟨hw, (hfilter w).mpr ⟨hwa, hwe⟩⟩
      rw [hl] at hwmem
      rcases List.mem_cons.mp hwmem with h | h
      · rw [h]; exact hle
      · exact hall w h
    · intro hn
      unfold historyGetScheduleForDate at hn
      rw [hl, List.foldl_cons] at hn
      rw [hu] at hn
      exact absurd hn (by simp)

/-- C3 (amended): the per-date stored-version lookup
(`HistoryService.getScheduleForDate`) returns the latest stored active
version whose effective date is at most the query date — in particular it
never returns a version with effective date after the query date — and ties
resolve to the latest creation order; but when no stored version qualifies,
`VersionedScheduleService.getScheduleForDate` falls back to the in-memory
current version, whose effective date is not constrained by the query
date. -/
theorem c3_version_selection_amended (st : VersionedServiceState) (target : Nat) :
    (∀ v, historyGetScheduleForDate st.db target = some v →
      serviceGetScheduleForDate st target = ⟨v.schedule_data, some v⟩
      ∧ v ∈ st.db ∧ v.is_active = true ∧ v.effective_date ≤ target
      ∧ ∀ w ∈ st.db, w.is_active = true → w.effective_date ≤ target →
          w.effective_date ≤ v.effective_date)
    ∧ (historyGetScheduleForDate st.db target = none →
      serviceGetScheduleForDate st target = ⟨st.currentSchedule, st.currentVersion⟩) := by
  constructor
  · intro v hv
    have hsvc : serviceGetScheduleForDate st target = ⟨v.schedule_data, some v⟩ := by
      unfold serviceGetScheduleForDate
      rw [hv]
    have hspec := (historyGetScheduleForDate_spec st.db target).1 v hv
    exact ⟨hsvc, hspec.1, hspec.2.1, hspec.2.2.1, hspec.2.2.2⟩
  · intro hn
    unfold serviceGetScheduleForDate
    rw [hn]

/-- Counterexample to C3 as stated: with a single stored version effective
on day 26 and that version held as the in-memory current version, the query
for day 25 finds no stored version and the service returns the current
version — whose effective date 26 is strictly greater than the query
date 25.  (Day codes stand for `YYYY-MM-DD` strings in their lexicographic
order.) -/
theorem c3_version_selection_counterexample :
    historyGetScheduleForDate [ScheduleVersion.mk 1 "v1" 26 "S" true] 25 = none
    ∧ serviceGetScheduleForDate
        (VersionedServiceState.mk [ScheduleVersion.mk 1 "v1" 26 "S" true] "current"
          (some (ScheduleVersion.mk 1 "v1" 26 "S" true))) 25
      = ⟨"current", some (ScheduleVersion.mk 1 "v1" 26 "S" true)⟩
    ∧ 25 < (ScheduleVersion.mk 1 "v1" 26 "S" true).effective_date := by
  refine ⟨rfl, rfl, by decide⟩

/-- Witness for C3's amended theorem at a concrete store in which a version
qualifies for the query date. -/
theorem c3_version_selection_amended_witness :
    historyGetScheduleForDate
        (VersionedServiceState.mk [ScheduleVersion.mk 1 "v1" 20 "S" true] "current" none).db 25
      = some (ScheduleVersion.mk 1 "v1" 20 "S" true)
    ∧ serviceGetScheduleForDate
        (VersionedServiceState.mk [ScheduleVersion.mk 1 "v1" 20 "S" true] "current" none) 25
      = ⟨"S", some (ScheduleVersion.mk 1 "v1" 20 "S" true)⟩ :=
  ⟨rfl,
    ((c3_version_selection_amended
      (VersionedServiceState.mk [ScheduleVersion.mk 1 "v1" 20 "S" true] "current" none) 25).1
      (ScheduleVersion.mk 1 "v1" 20 "S" true) rfl).1⟩

/-- Start-day agreement: when the host offset equals the layer's own offset
and the start instant's clock time is within the day, the second copy's
host-local start day equals the first copy's ISO-date start day. -/
theorem hostStartDay_eq_layerStartDay (layer : Layer)
    (h0 : 0 ≤ layer.start_time.hour * 3600000 + layer.start_time.minute * 60000)
    (h1 : layer.start_time.hour * 3600000 + layer.start_time.minute * 60000 < msPerDay) :
    hostStartDay layer layer.start_time.tzOffsetMin = layerStartDay layer := by
  unfold hostStartDay IsoTime.utcMs layerStartDay
  rw [show daysFromCivil layer.start_time.year layer.start_time.month layer.start_time.day
        * msPerDay + layer.start_time.hour * 3600000 + layer.start_time.minute * 60000
        - layer.start_time.tzOffsetMin * 60000 + layer.start_time.tzOffsetMin * 60000
      = daysFromCivil layer.start_time.year layer.start_time.month layer.start_time.day
        * msPerDay
        + (layer.start_time.hour * 3600000 + layer.start_time.minute * 60000) by ring]
  exact epochDay_mul_add _ _ h0 h1

/-- Day-count agreement between the two copies at host offset equal to the
layer's offset. -/
theorem daysDiffHost_eq_daysDiffTz (layer : Layer) (t : Int)
    (h0 : 0 ≤ layer.start_time.hour * 3600000 + layer.start_time.minute * 60000)
    (h1 : layer.start_time.hour * 3600000 + layer.start_time.minute * 60000 < msPerDay) :
    daysDiffHost layer t layer.start_time.tzOffsetMin = daysDiffTz layer t := by
  unfold daysDiffHost daysDiffTz
  rw [hostStartDay_eq_layerStartDay layer h0 h1]
  rfl

/-- C9 (amended): the two source copies of the rotation calculator agree
when the host's offset equals the layer's own offset, the layer's start
clock time is a valid time of day, and the override set is empty; they are
not equivalent in general (see the counterexample), because the first copy
keys structured overrides by the layer-offset calendar date while the
second keys them by the UTC calendar date. -/
theorem c9_copies_agree_amended (layer : Layer) (t : Int) (layerKey : Option String)
    (h0 : 0 ≤ layer.start_time.hour * 3600000 + layer.start_time.minute * 60000)
    (h1 : layer.start_time.hour * 3600000 + layer.start_time.minute * 60000 < msPerDay) :
    calculateCurrentAssignment (some layer) t Overrides.empty layerKey
        layer.start_time.tzOffsetMin
      = calculateCurrentAssignmentUtc (some layer) t Overrides.empty layerKey
        layer.start_time.tzOffsetMin := by
  by_cases hu : layer.users.isEmpty
  · simp [calculateCurrentAssignment, calculateCurrentAssignmentUtc, hu]
  · simp [calculateCurrentAssignment, calculateCurrentAssignmentUtc, hu, Overrides.empty,
      daysDiffHost_eq_daysDiffTz layer t h0 h1]

/-- Counterexample to C9 as stated: at `2025-09-25T20:00Z` (host at UTC),
the layer-offset (`+05:30`) calendar date is `2025-09-26` while the UTC
date is `2025-09-25`; a structured override recorded for `2025-09-26` is
honoured by the timezone-aware copy but missed by the UTC copy, which
returns the computed rotation member instead. -/
theorem c9_copies_agree_counterexample :
    calculateCurrentAssignment (some layer1Fixture) (utcMsOf 2025 9 25 20 0 0)
        (Overrides.mk
          (fun d k => if d = "2025-09-26" ∧ k = "layer1" then some "gaurav" else none)
          (fun _ => none))
        (some "layer1") 0
      = ⟨"gaurav", true, some "Manual override"⟩
    ∧ calculateCurrentAssignmentUtc (some layer1Fixture) (utcMsOf 2025 9 25 20 0 0)
        (Overrides.mk
          (fun d k => if d = "2025-09-26" ∧ k = "layer1" then some "gaurav" else none)
          (fun _ => none))
        (some "layer1") 0
      = ⟨"dinesh", false, none⟩ := by
  constructor <;> decide

/-- Witness for C9's amended theorem at the concrete fallback layer. -/
theorem c9_copies_agree_amended_witness :
    0 ≤ layer1Fixture.start_time.hour * 3600000 + layer1Fixture.start_time.minute * 60000
    ∧ layer1Fixture.start_time.hour * 3600000 + layer1Fixture.start_time.minute * 60000
      < msPerDay
    ∧ calculateCurrentAssignment (some layer1Fixture) (utcMsOf 2025 9 29 10 0 330)
        Overrides.empty (some "layer1") layer1Fixture.start_time.tzOffsetMin
      = calculateCurrentAssignmentUtc (some layer1Fixture) (utcMsOf 2025 9 29 10 0 330)
        Overrides.empty (some "layer1") layer1Fixture.start_time.tzOffsetMin :=
  ⟨by decide, by decide,
    c9_copies_agree_amended layer1Fixture (utcMsOf 2025 9 29 10 0 330) (some "layer1")
      (by decide) (by decide)⟩

end OnCall
